import Mathlib

/-!
Shallow embedding of the agentic-email core: the agent pipeline executor
(AgentOrchestrator.processEmailInternal) and the campaign scheduler /
state machine (CampaignService).  Definitions are translated from the
TypeScript source; theorems settle the specification claims.
-/

namespace AgenticEmail

/-! ## Message model (src/models/email.model.ts, fields relevant to the pipeline) -/

structure Email where
  id : String
  subject : String
  body : String
  category : String
  priority : String
  labels : List String
  deriving DecidableEq

/-- A `Partial Email` object: each field optionally overridden, as produced by
an agent's `modifications`. -/
structure EmailPatch where
  id : Option String := none
  subject : Option String := none
  body : Option String := none
  category : Option String := none
  priority : Option String := none
  labels : Option (List String) := none
  deriving DecidableEq

/-- Object-spread merge of a patch into an email, as in
`processedEmail = ...processedEmail ...result.modifications` (spread syntax):
a field present in the patch wins, otherwise the existing field is kept. -/
def applyPatch (e : Email) (p : EmailPatch) : Email :=
  { id := p.id.getD e.id
    subject := p.subject.getD e.subject
    body := p.body.getD e.body
    category := p.category.getD e.category
    priority := p.priority.getD e.priority
    labels := p.labels.getD e.labels }

/-! ## Agent model (src/core/interfaces.ts, src/models/agent.model.ts) -/

/-- `AgentProcessResult` from src/core/interfaces.ts. -/
structure AgentProcessResult where
  success : Bool
  modifications : Option EmailPatch := none
  error : Option String := none
  deriving DecidableEq

/-- Outcome of invoking `agent.process`: either a returned result or a thrown
error (modelled with its message). -/
inductive AgentBehavior where
  | returns (r : AgentProcessResult)
  | throws (msg : String)

/-- An agent as seen by the orchestrator: identity, name, declared type,
numeric priority field (from AgentConfigSchema), and its `process` function. -/
structure Agent where
  id : String
  name : String
  type : String
  priority : Nat
  process : Email → AgentBehavior

/-- `AgentOrchestrator.getAgentPriority`: fixed type-priority table,
unknown types get 0 (the `|| 0` fallback). -/
def getAgentPriority (agent : Agent) : Nat :=
  match agent.type with
  | "security" => 100
  | "filter" => 90
  | "categorizer" => 80
  | "prioritizer" => 70
  | "summarizer" => 60
  | "translator" => 50
  | "responder" => 40
  | "scheduler" => 30
  | _ => 0

/-- Stable insertion (descending by `getAgentPriority`): an element is placed
before the first element of strictly smaller priority; on ties the earlier
(registration-order) element stays first, matching the stable
`Array.prototype.sort` with comparator `priorityB - priorityA`. -/
def insertAgent (a : Agent) : List Agent → List Agent
  | [] => [a]
  | b :: bs =>
      if getAgentPriority b ≤ getAgentPriority a then a :: b :: bs
      else b :: insertAgent a bs

/-- The orchestrator's sort of registered agents, descending by the
type-priority table, stable in registration order. -/
def sortAgents : List Agent → List Agent
  | [] => []
  | a :: rest => insertAgent a (sortAgents rest)

/-! ## Task ledger (AgentTaskSchema) and the pipeline loop -/

/-- An `AgentTask` ledger record as saved by the orchestrator.  `paramsEmail`
is the email snapshot stored in `parameters`; `result` and `completed` model
the optional `result` and `completedAt` fields. -/
structure AgentTask where
  taskId : Nat
  agentId : String
  emailId : String
  action : String
  paramsEmail : Email
  status : String
  error : Option String := none
  result : Option AgentProcessResult := none
  completed : Bool := false
  deriving DecidableEq

/-- Mutable state threaded through the `for` loop of `processEmailInternal`:
the working email, the append-only list of ledger save events, the
`agentResults` map (as an append list; each agent id is set once), and the
uuid supply modelled as a counter. -/
structure PipelineState where
  processedEmail : Email
  ledger : List AgentTask
  agentResults : List (String × AgentProcessResult)
  nextTaskId : Nat

/-- One iteration of the loop body of `processEmailInternal`: save a
`processing` task, invoke the agent on the accumulated email; on a returned
result record the outcome, merge modifications when successful, and save the
finalized task; on a thrown error record only the failure outcome, so the
task is saved once and never finalized (the catch block performs no second
save). -/
def runAgentStep (emailId : String) (st : PipelineState) (agent : Agent) :
    PipelineState :=
  let task : AgentTask :=
    { taskId := st.nextTaskId, agentId := agent.id, emailId := emailId,
      action := "process", paramsEmail := st.processedEmail,
      status := "processing" }
  match agent.process st.processedEmail with
  | .throws msg =>
      { processedEmail := st.processedEmail
        ledger := st.ledger ++ [task]
        agentResults := st.agentResults ++
          [(agent.id, { success := false, error := some msg })]
        nextTaskId := st.nextTaskId + 1 }
  | .returns r =>
      let newEmail :=
        if r.success then
          match r.modifications with
          | some m => applyPatch st.processedEmail m
          | none => st.processedEmail
        else st.processedEmail
      let finalTask : AgentTask :=
        { task with
            status := if r.success then "completed" else "failed"
            result := some r
            completed := true
            error :=
              if r.success then none
              else match r.error with
                   | some s => if s = "" then none else some s
                   | none => none }
      { processedEmail := newEmail
        ledger := st.ledger ++ [task, finalTask]
        agentResults := st.agentResults ++ [(agent.id, r)]
        nextTaskId := st.nextTaskId + 1 }

/-- The loop over the sorted agents. -/
def runAgents (emailId : String) (l : List Agent) (st : PipelineState) :
    PipelineState :=
  l.foldl (runAgentStep emailId) st

/-- `ProcessingResult` (src/core/interfaces.ts), without the wall-clock
`processingTime`. -/
structure ProcessingResult where
  email : Email
  agentResults : List (String × AgentProcessResult)
  finalEmail : Email

/-- The returned result together with the ledger writes performed. -/
structure PipelineOutput where
  result : ProcessingResult
  ledger : List AgentTask

/-- `AgentOrchestrator.processEmailInternal`: sort the registered agents by
the type-priority table, run each in order over the accumulated email, and
return the original email, the outcome map, and the final email. -/
def processEmailInternal (agents : List Agent) (email : Email) :
    PipelineOutput :=
  let stF := runAgents email.id (sortAgents agents)
    { processedEmail := email, ledger := [], agentResults := [],
      nextTaskId := 0 }
  { result :=
      { email := email, agentResults := stF.agentResults,
        finalEmail := stF.processedEmail }
    ledger := stF.ledger }

/-- Sequential application of each successful unit's modifications, in order,
to an email: the specification's description of what the pipeline computes. -/
def applySuccessfulMods (e : Email) : List Agent → Email
  | [] => e
  | a :: rest =>
      match a.process e with
      | .returns r =>
          if r.success then
            match r.modifications with
            | some m => applySuccessfulMods (applyPatch e m) rest
            | none => applySuccessfulMods e rest
          else applySuccessfulMods e rest
      | .throws _ => applySuccessfulMods e rest

/-! ## Campaign model (src/core/interfaces.ts, src/services/campaign.service.ts)

Time is modelled as epoch milliseconds (Int).  The Bull job queue is a list
of jobs; `qfail` injects a job-queue submission failure (a rejected
`queue.add`), which the source surfaces through its catch blocks. -/

inductive CampaignStatus where
  | draft | scheduled | active | paused | completed | cancelled
  deriving DecidableEq

/-- `ScheduleFrequency` from src/core/interfaces.ts. -/
structure ScheduleFrequency where
  type : String
  interval : Option Nat := none
  daysOfWeek : Option (List Nat) := none
  dayOfMonth : Option Nat := none
  customCron : Option String := none
  deriving DecidableEq

/-- `CampaignSchedule` from src/core/interfaces.ts (batchSize/throttleRate
omitted; nothing reads them). -/
structure CampaignSchedule where
  startDate : Int
  endDate : Option Int := none
  timezone : String
  sendTime : Option String := none
  frequency : Option ScheduleFrequency := none
  deriving DecidableEq

/-- `ApprovalStatus` as written by `approveDraft`. -/
structure ApprovalStatus where
  required : Bool
  approved : Bool
  approvedBy : Option String := none
  deriving DecidableEq

/-- An `EmailCampaign`, restricted to the fields the scheduler/state machine
reads or writes (`metricsSent` models `metrics.sent`). -/
structure Campaign where
  id : String
  name : String
  status : CampaignStatus
  schedule : CampaignSchedule
  metricsSent : Nat
  approvalStatus : Option ApprovalStatus := none
  deriving DecidableEq

/-- An `EmailDraft`, restricted to the fields approve/reject touch. -/
structure EmailDraft where
  id : String
  campaignId : Option String := none
  status : String
  deriving DecidableEq

/-- A Bull job as submitted by the campaign service (name always
`send-campaign` here), with its queue state (`waiting`, `delayed` or
`failed`). -/
structure Job where
  name : String
  campaignId : String
  state : String
  delay : Option Int := none
  attempts : Option Nat := none
  backoffType : Option String := none
  backoffDelay : Option Nat := none
  repeatCron : Option String := none
  repeatTz : Option String := none
  repeatStartDate : Option Int := none
  repeatEndDate : Option Int := none
  deriving DecidableEq

/-- The CampaignService's shared mutable state: the in-memory campaign and
draft maps, the job queue, and the log of synchronous invocations of the
campaign-execution callback (`executeCampaign` bodies that actually ran). -/
structure ServiceState where
  campaigns : List (String × Campaign)
  drafts : List (String × EmailDraft)
  queue : List Job
  execLog : List String
  deriving DecidableEq

/-! JS `Map` operations as association-list operations: `set` replaces in
place or appends, `get` finds the first binding, `delete` removes it. -/

def mapGet {α : Type} (k : String) : List (String × α) → Option α
  | [] => none
  | (k', v) :: rest => if k' = k then some v else mapGet k rest

def mapSet {α : Type} (k : String) (v : α) : List (String × α) → List (String × α)
  | [] => [(k, v)]
  | (k', v') :: rest =>
      if k' = k then (k, v) :: rest else (k', v') :: mapSet k v rest

def mapDel {α : Type} (k : String) (l : List (String × α)) : List (String × α) :=
  l.filter (fun p => !(p.fst == k))

/-- `CampaignService.getCampaign`: in-memory map lookup (the database
fallback `loadCampaignFromDatabase` always returns null in the source). -/
def getCampaign (s : ServiceState) (cid : String) : Option Campaign :=
  mapGet cid s.campaigns

/-- `queue.add`: appends the job, or rejects when the queue substrate is
unavailable (`qfail`). -/
def queueAdd (qfail : Bool) (j : Job) (q : List Job) :
    Except String (List Job) :=
  if qfail then .error "queue unavailable" else .ok (q ++ [j])

/-- `CampaignService.executeCampaign` (the job/execution callback): set the
campaign active, run the send logic (recorded in `execLog`), bump
`metrics.sent` by 100. -/
def executeCampaign (s : ServiceState) (cid : String) :
    ServiceState × Except String Unit :=
  match getCampaign s cid with
  | none => (s, .error ("Campaign " ++ cid ++ " not found"))
  | some c =>
      let c1 := { c with status := CampaignStatus.active }
      let s1 := { s with campaigns := mapSet cid c1 s.campaigns }
      let c2 := { c1 with metricsSent := c1.metricsSent + 100 }
      ({ s1 with campaigns := mapSet cid c2 s1.campaigns,
                 execLog := s1.execLog ++ [cid] }, .ok ())

/-- The single delayed job submitted by `scheduleOneTimeCampaign` when the
start date is in the future: 3 attempts, exponential backoff with base delay
60000 ms. -/
def oneTimeJob (cid : String) (delay : Int) : Job :=
  { name := "send-campaign", campaignId := cid, state := "delayed",
    delay := some delay, attempts := some 3,
    backoffType := some "exponential", backoffDelay := some 60000 }

/-- `CampaignService.scheduleOneTimeCampaign`: delay = startDate - now; a
positive delay submits one delayed job, otherwise the campaign executes
immediately and synchronously. -/
def scheduleOneTimeCampaign (qfail : Bool) (now : Int) (s : ServiceState)
    (cid : String) (schedule : CampaignSchedule) :
    ServiceState × Except String Unit :=
  let delay := schedule.startDate - now
  if delay > 0 then
    match queueAdd qfail (oneTimeJob cid delay) s.queue with
    | .error e => (s, .error e)
    | .ok q => ({ s with queue := q }, .ok ())
  else
    executeCampaign s cid

/-- JS truthiness of `schedule.sendTime`: undefined and the empty string
both fall back to the documented default constant "10:00". -/
def sendTimeOrDefault (schedule : CampaignSchedule) : String :=
  match schedule.sendTime with
  | some t => if t = "" then "10:00" else t
  | none => "10:00"

/-- The cron pattern string `scheduleRecurringCampaign` builds from the
frequency descriptor; the weekly days default constant is "1" and the custom
fallback is "0 10 * * *".  An absent frequency leaves the initial empty
string (the switch falls through). -/
def deriveCronPattern (schedule : CampaignSchedule) : String :=
  match schedule.frequency with
  | none => ""
  | some freq =>
      match freq.type with
      | "daily" => "0 " ++ sendTimeOrDefault schedule ++ " * * *"
      | "weekly" =>
          let days :=
            match freq.daysOfWeek with
            | some l =>
                let j := String.intercalate "," (l.map toString)
                if j = "" then "1" else j
            | none => "1"
          "0 " ++ sendTimeOrDefault schedule ++ " * * " ++ days
      | "monthly" =>
          let day :=
            match freq.dayOfMonth with
            | some d => if d = 0 then 1 else d
            | none => 1
          "0 " ++ sendTimeOrDefault schedule ++ " " ++ toString day ++ " * *"
      | "custom" =>
          match freq.customCron with
          | some c => if c = "" then "0 10 * * *" else c
          | none => "0 10 * * *"
      | _ => ""

/-- The repeating job submitted by `scheduleRecurringCampaign`. -/
def recurringJob (cid : String) (schedule : CampaignSchedule) : Job :=
  { name := "send-campaign", campaignId := cid, state := "delayed",
    repeatCron := some (deriveCronPattern schedule),
    repeatTz := some schedule.timezone,
    repeatStartDate := some schedule.startDate,
    repeatEndDate := schedule.endDate }

/-- `CampaignService.scheduleRecurringCampaign`. -/
def scheduleRecurringCampaign (qfail : Bool) (s : ServiceState)
    (cid : String) (schedule : CampaignSchedule) :
    ServiceState × Except String Unit :=
  match queueAdd qfail (recurringJob cid schedule) s.queue with
  | .error e => (s, .error e)
  | .ok q => ({ s with queue := q }, .ok ())

/-- `CampaignService.scheduleCampaign`: look up the campaign, set its
schedule and `scheduled` status in the store, then submit jobs (recurring
when a frequency is present, one-time otherwise).  Errors are wrapped by the
catch block; note the status assignment persists even if the later job
submission fails. -/
def scheduleCampaign (qfail : Bool) (now : Int) (s : ServiceState)
    (cid : String) (schedule : CampaignSchedule) :
    ServiceState × Except String Unit :=
  match getCampaign s cid with
  | none =>
      (s, .error ("Failed to schedule campaign: Campaign " ++ cid ++ " not found"))
  | some c =>
      let c1 := { c with schedule := schedule,
                         status := CampaignStatus.scheduled }
      let s1 := { s with campaigns := mapSet cid c1 s.campaigns }
      let r :=
        if schedule.frequency.isSome then
          scheduleRecurringCampaign qfail s1 cid schedule
        else
          scheduleOneTimeCampaign qfail now s1 cid schedule
      match r.2 with
      | .ok _ => (r.1, .ok ())
      | .error e => (r.1, .error ("Failed to schedule campaign: " ++ e))

/-- `CampaignService.pauseCampaign`: set `paused`, then move every waiting
or delayed job referencing the campaign to the failed state. -/
def pauseCampaign (s : ServiceState) (cid : String) :
    ServiceState × Except String Unit :=
  match getCampaign s cid with
  | none =>
      (s, .error ("Failed to pause campaign: Campaign " ++ cid ++ " not found"))
  | some c =>
      let c1 := { c with status := CampaignStatus.paused }
      let s1 := { s with campaigns := mapSet cid c1 s.campaigns }
      let q := s1.queue.map (fun j =>
        if (j.state == "waiting" || j.state == "delayed") && j.campaignId == cid
        then { j with state := "failed" } else j)
      ({ s1 with queue := q }, .ok ())

/-- `CampaignService.resumeCampaign`: only a paused campaign may resume; set
`active`, then re-run the scheduling logic on the stored schedule (which
itself sets the status to `scheduled` and may execute immediately). -/
def resumeCampaign (qfail : Bool) (now : Int) (s : ServiceState)
    (cid : String) : ServiceState × Except String Unit :=
  match getCampaign s cid with
  | none =>
      (s, .error ("Failed to resume campaign: Campaign " ++ cid ++ " not found"))
  | some c =>
      if c.status = CampaignStatus.paused then
        let c1 := { c with status := CampaignStatus.active }
        let s1 := { s with campaigns := mapSet cid c1 s.campaigns }
        let r := scheduleCampaign qfail now s1 cid c1.schedule
        match r.2 with
        | .ok _ => (r.1, .ok ())
        | .error e => (r.1, .error ("Failed to resume campaign: " ++ e))
      else
        (s, .error "Failed to resume campaign: Campaign is not paused")

/-- `CampaignService.cancelScheduledJobs`: remove every waiting or delayed
job referencing the campaign id. -/
def cancelScheduledJobs (s : ServiceState) (cid : String) : ServiceState :=
  { s with queue := s.queue.filter (fun j =>
      !((j.state == "waiting" || j.state == "delayed") && j.campaignId == cid)) }

/-- `CampaignService.deleteCampaign`: false for an unknown id; cancels the
scheduled jobs only when the campaign status is `scheduled`, then removes
the campaign from the store. -/
def deleteCampaign (s : ServiceState) (cid : String) :
    ServiceState × Except String Bool :=
  match getCampaign s cid with
  | none => (s, .ok false)
  | some c =>
      let s1 :=
        if c.status = CampaignStatus.scheduled then cancelScheduledJobs s cid
        else s
      ({ s1 with campaigns := mapDel cid s1.campaigns }, .ok true)

/-- `CampaignService.approveDraft`: unconditionally set the draft status to
`approved` (no guard on the current status), then mark the linked campaign
approved when one exists. -/
def approveDraft (s : ServiceState) (draftId approver : String) :
    ServiceState × Except String Unit :=
  match mapGet draftId s.drafts with
  | none =>
      (s, .error ("Failed to approve draft: Draft " ++ draftId ++ " not found"))
  | some d =>
      let d1 := { d with status := "approved" }
      let s1 := { s with drafts := mapSet draftId d1 s.drafts }
      match d.campaignId with
      | some cid =>
          match getCampaign s1 cid with
          | some c =>
              let ap : ApprovalStatus :=
                { required := true, approved := true,
                  approvedBy := some approver }
              let c1 := { c with approvalStatus := some ap }
              ({ s1 with campaigns := mapSet cid c1 s1.campaigns }, .ok ())
          | none => (s1, .ok ())
      | none => (s1, .ok ())

/-- `CampaignService.rejectDraft`: unconditionally set the draft status to
`rejected` (no guard on the current status). -/
def rejectDraft (s : ServiceState) (draftId _reason : String) :
    ServiceState × Except String Unit :=
  match mapGet draftId s.drafts with
  | none =>
      (s, .error ("Failed to reject draft: Draft " ++ draftId ++ " not found"))
  | some d =>
      ({ s with drafts := mapSet draftId { d with status := "rejected" } s.drafts },
       .ok ())

/-! ## Shared lemmas about the pipeline loop -/

theorem runAgents_cons (eid : String) (a : Agent) (l : List Agent)
    (st : PipelineState) :
    runAgents eid (a :: l) st = runAgents eid l (runAgentStep eid st a) := rfl

theorem runAgents_append (eid : String) (l₁ l₂ : List Agent)
    (st : PipelineState) :
    runAgents eid (l₁ ++ l₂) st = runAgents eid l₂ (runAgents eid l₁ st) := by
  simp [runAgents, List.foldl_append]

theorem processedEmail_runAgents (eid : String) (l : List Agent) :
    ∀ st : PipelineState,
      (runAgents eid l st).processedEmail
        = applySuccessfulMods st.processedEmail l := by
  induction l with
  | nil => intro st; rfl
  | cons a rest ih =>
      intro st
      rw [runAgents_cons, ih]
      cases h : a.process st.processedEmail with
      | throws msg => simp [runAgentStep, applySuccessfulMods, h]
      | returns r =>
          rcases r with ⟨succ, mods, err⟩
          cases succ with
          | false => simp [runAgentStep, applySuccessfulMods, h]
          | true =>
              cases mods with
              | none => simp [runAgentStep, applySuccessfulMods, h]
              | some m => simp [runAgentStep, applySuccessfulMods, h]

theorem nextTaskId_runAgents (eid : String) (l : List Agent) :
    ∀ st : PipelineState,
      (runAgents eid l st).nextTaskId = st.nextTaskId + l.length := by
  induction l with
  | nil => intro st; simp [runAgents]
  | cons a rest ih =>
      intro st
      rw [runAgents_cons, ih]
      cases h : a.process st.processedEmail <;>
        simp [runAgentStep, h] <;> omega

theorem agentResults_keys_runAgents (eid : String) (l : List Agent) :
    ∀ st : PipelineState,
      ((runAgents eid l st).agentResults).map Prod.fst
        = st.agentResults.map Prod.fst ++ l.map Agent.id := by
  induction l with
  | nil => intro st; simp [runAgents]
  | cons a rest ih =>
      intro st
      rw [runAgents_cons, ih]
      cases h : a.process st.processedEmail <;> simp [runAgentStep, h]

theorem mem_agentResults_runAgents (eid : String) (l : List Agent) :
    ∀ st : PipelineState, ∀ p : String × AgentProcessResult,
      p ∈ st.agentResults → p ∈ (runAgents eid l st).agentResults := by
  induction l with
  | nil => intro st p hp; exact hp
  | cons a rest ih =>
      intro st p hp
      rw [runAgents_cons]
      apply ih
      cases h : a.process st.processedEmail <;>
        simp [runAgentStep, h] <;> exact Or.inl hp

theorem ledger_runAgents_decomp (eid : String) (l : List Agent) :
    ∀ st : PipelineState, ∃ tail : List AgentTask,
      (runAgents eid l st).ledger = st.ledger ++ tail ∧
      ∀ t ∈ tail, st.nextTaskId ≤ t.taskId := by
  induction l with
  | nil => intro st; exact ⟨[], by simp [runAgents], by simp⟩
  | cons a rest ih =>
      intro st
      rw [runAgents_cons]
      obtain ⟨tail, htail, hbound⟩ := ih (runAgentStep eid st a)
      cases h : a.process st.processedEmail with
      | throws msg =>
          refine ⟨?_ ++ tail, ?_, ?_⟩
          · exact [{ taskId := st.nextTaskId, agentId := a.id, emailId := eid,
                     action := "process", paramsEmail := st.processedEmail,
                     status := "processing" }]
          · rw [htail]; simp [runAgentStep, h]
          · intro t ht
            rcases List.mem_append.mp ht with h1 | h2
            · simp at h1; subst h1; simp
            · have := hbound t h2
              simp [runAgentStep, h] at this
              omega
      | returns r =>
          refine ⟨?_ ++ tail, ?_, ?_⟩
          · exact ((runAgentStep eid st a).ledger.drop st.ledger.length)
          · rw [htail]
            cases hr : r.success <;>
              simp [runAgentStep, h, hr, List.drop_append]
          · intro t ht
            rcases List.mem_append.mp ht with h1 | h2
            · cases hr : r.success <;>
                simp [runAgentStep, h, hr, List.drop_append] at h1 <;>
                rcases h1 with h1 | h1 <;> subst h1 <;> simp
            · have := hbound t h2
              simp [runAgentStep, h] at this
              omega

theorem ledger_runAgents_bound (eid : String) (l : List Agent) :
    ∀ st : PipelineState,
      (∀ t ∈ st.ledger, t.taskId < st.nextTaskId) →
      ∀ t ∈ (runAgents eid l st).ledger,
        t.taskId < (runAgents eid l st).nextTaskId := by
  induction l with
  | nil => intro st h; exact h
  | cons a rest ih =>
      intro st h
      rw [runAgents_cons]
      apply ih
      intro t ht
      cases hp : a.process st.processedEmail with
      | returns r =>
          simp [runAgentStep, hp] at ht ⊢
          rcases ht with ht | ht | ht
          · exact Nat.lt_succ_of_lt (h t ht)
          · subst ht; simp
          · subst ht; simp
      | throws msg =>
          simp [runAgentStep, hp] at ht ⊢
          rcases ht with ht | ht
          · exact Nat.lt_succ_of_lt (h t ht)
          · subst ht; simp

/-! ## Claims about the pipeline executor -/

/-- C1: for every input message and every set of registered agent units, the
pipeline invokes each unit in type-priority order (one recorded outcome per
sorted unit, in order) and the final message equals the sequential
application of each successful unit's modifications, in that order,
regardless of other units' failures. -/
theorem pipeline_output_is_sequential_application
    (agents : List Agent) (email : Email) :
    (processEmailInternal agents email).result.finalEmail
        = applySuccessfulMods email (sortAgents agents) ∧
    (processEmailInternal agents email).result.agentResults.map Prod.fst
        = (sortAgents agents).map Agent.id := by
  constructor
  · exact processedEmail_runAgents email.id (sortAgents agents) _
  · have := agentResults_keys_runAgents email.id (sortAgents agents)
      { processedEmail := email, ledger := [], agentResults := [],
        nextTaskId := 0 }
    simpa [processEmailInternal] using this

/-- C10: running the pipeline never alters the caller's message: the email
field of the returned result is the original input, and the accumulated
modifications appear only in the separate finalEmail field. -/
theorem pipeline_preserves_input_message
    (agents : List Agent) (email : Email) :
    (processEmailInternal agents email).result.email = email ∧
    (processEmailInternal agents email).result.finalEmail
        = applySuccessfulMods email (sortAgents agents) :=
  ⟨rfl, processedEmail_runAgents email.id (sortAgents agents) _⟩

/-! Lemmas for the ordering claim. -/

theorem getAgentPriority_congr (x y : Agent) (h : x.type = y.type) :
    getAgentPriority x = getAgentPriority y := by
  simp [getAgentPriority, h]

theorem insertAgent_map (g : Agent → Agent)
    (hg : ∀ x, (g x).type = x.type) (a : Agent) (l : List Agent) :
    insertAgent (g a) (l.map g) = (insertAgent a l).map g := by
  induction l with
  | nil => rfl
  | cons b bs ih =>
      have hb : getAgentPriority (g b) = getAgentPriority b :=
        getAgentPriority_congr _ _ (hg b)
      have ha : getAgentPriority (g a) = getAgentPriority a :=
        getAgentPriority_congr _ _ (hg a)
      by_cases hle : getAgentPriority b ≤ getAgentPriority a
      · simp [insertAgent, hb, ha, hle]
      · simp [insertAgent, hb, ha, hle, ih]

theorem sortAgents_map (g : Agent → Agent)
    (hg : ∀ x, (g x).type = x.type) (l : List Agent) :
    sortAgents (l.map g) = (sortAgents l).map g := by
  induction l with
  | nil => rfl
  | cons a rest ih => simp [sortAgents, ih, insertAgent_map g hg]

/-- C3: the execution order is derived from the fixed type-priority table
and is invariant under arbitrary changes of the units' numeric priority
fields (any type-preserving rewrite of the registered units commutes with
the sort); in particular units of types filter, categorizer, responder are
executed in that order from any registration order, whatever their numeric
priority fields say. -/
theorem execution_order_from_type_table
    (g : Agent → Agent) (hg : ∀ x, (g x).type = x.type) (l : List Agent)
    (a b c : Agent) (ha : a.type = "filter") (hb : b.type = "categorizer")
    (hc : c.type = "responder") (reg : List Agent)
    (hreg : reg = [a, b, c] ∨ reg = [a, c, b] ∨ reg = [b, a, c] ∨
            reg = [b, c, a] ∨ reg = [c, a, b] ∨ reg = [c, b, a]) :
    sortAgents (l.map g) = (sortAgents l).map g ∧
    sortAgents reg = [a, b, c] := by
  refine ⟨sortAgents_map g hg l, ?_⟩
  rcases hreg with h | h | h | h | h | h <;> subst h <;>
    simp [sortAgents, insertAgent, getAgentPriority, ha, hb, hc]

/-- Sample units whose numeric priority fields disagree with the type
table, used to instantiate the ordering theorem. -/
def filterUnit : Agent :=
  { id := "u-filter", name := "F", type := "filter", priority := 2,
    process := fun _ => .returns { success := true } }

def categorizerUnit : Agent :=
  { id := "u-cat", name := "C", type := "categorizer", priority := 97,
    process := fun _ => .returns { success := true } }

def responderUnit : Agent :=
  { id := "u-resp", name := "R", type := "responder", priority := 99,
    process := fun _ => .returns { success := true } }

/-- C3 witness: the ordering theorem applied to concrete units registered
as responder, filter, categorizer with adversarial numeric priorities. -/
theorem execution_order_from_type_table_witness :
    sortAgents (([] : List Agent).map id) = (sortAgents []).map id ∧
    sortAgents [responderUnit, filterUnit, categorizerUnit]
      = [filterUnit, categorizerUnit, responderUnit] :=
  execution_order_from_type_table id (fun _ => rfl) []
    filterUnit categorizerUnit responderUnit rfl rfl rfl
    [responderUnit, filterUnit, categorizerUnit]
    (Or.inr (Or.inr (Or.inr (Or.inr (Or.inl rfl)))))

/-! Concrete pipeline inputs for the failure-isolation claims. -/

def exEmail : Email :=
  { id := "e1", subject := "s", body := "b", category := "inbox",
    priority := "normal", labels := [] }

def throwingAgent : Agent :=
  { id := "a-throw", name := "Thrower", type := "filter", priority := 5,
    process := fun _ => .throws "boom" }

def okAgent : Agent :=
  { id := "a-ok", name := "Worker", type := "responder", priority := 99,
    process := fun _ =>
      .returns { success := true,
                 modifications := some { subject := some "re" } } }

/-- C2 counterexample: in a concrete run where the filter unit throws, its
ledger writes leave its task in status processing with no error: the task
is never finalized as failed, contrary to the claim. -/
theorem thrown_task_not_finalized_counterexample :
    ((processEmailInternal [throwingAgent, okAgent] exEmail).ledger.filter
        (fun t => t.agentId == "a-throw")).map
      (fun t => (t.status, t.error)) = [("processing", none)] ∧
    ("processing", (none : Option String)) ≠ ("failed", none) := by
  constructor
  · rfl
  · decide

/-- C2 (amended): a unit that throws never prevents lower-priority units
from running (every sorted unit still gets exactly one recorded outcome, in
order) and its thrown message is recorded as its failure outcome; however
its Task Ledger entry is never finalized: the only ledger write for its task
leaves status processing with no error, rather than failed. -/
theorem thrown_unit_isolated_task_unfinalized
    (agents : List Agent) (email : Email) (pre post : List Agent)
    (a : Agent) (msg : String)
    (hsplit : sortAgents agents = pre ++ a :: post)
    (hthrow : a.process (applySuccessfulMods email pre) = .throws msg) :
    ((processEmailInternal agents email).result.agentResults.map Prod.fst
        = (pre ++ a :: post).map Agent.id) ∧
    ((a.id, ({ success := false, modifications := none,
               error := some msg } : AgentProcessResult))
        ∈ (processEmailInternal agents email).result.agentResults) ∧
    ((processEmailInternal agents email).ledger.filter
        (fun t => t.taskId == pre.length)
      = [{ taskId := pre.length, agentId := a.id, emailId := email.id,
           action := "process",
           paramsEmail := applySuccessfulMods email pre,
           status := "processing", error := none, result := none,
           completed := false }]) := by
  have hst0 :
      processEmailInternal agents email =
        { result :=
            { email := email,
              agentResults := (runAgents email.id (sortAgents agents)
                { processedEmail := email, ledger := [], agentResults := [],
                  nextTaskId := 0 }).agentResults,
              finalEmail := (runAgents email.id (sortAgents agents)
                { processedEmail := email, ledger := [], agentResults := [],
                  nextTaskId := 0 }).processedEmail }
          ledger := (runAgents email.id (sortAgents agents)
            { processedEmail := email, ledger := [], agentResults := [],
              nextTaskId := 0 }).ledger } := rfl
  set st0 : PipelineState :=
    { processedEmail := email, ledger := [], agentResults := [],
      nextTaskId := 0 } with hst0def
  set st1 : PipelineState := runAgents email.id pre st0 with hst1def
  have hmail : st1.processedEmail = applySuccessfulMods email pre := by
    rw [hst1def]; exact processedEmail_runAgents email.id pre st0
  have hnext : st1.nextTaskId = pre.length := by
    rw [hst1def]
    have := nextTaskId_runAgents email.id pre st0
    simpa using this
  have hthrow' : a.process st1.processedEmail = .throws msg := by
    rw [hmail]; exact hthrow
  set task : AgentTask :=
    { taskId := st1.nextTaskId, agentId := a.id, emailId := email.id,
      action := "process", paramsEmail := st1.processedEmail,
      status := "processing" } with htaskdef
  have hstep : runAgentStep email.id st1 a =
      { processedEmail := st1.processedEmail
        ledger := st1.ledger ++ [task]
        agentResults := st1.agentResults ++
          [(a.id, { success := false, modifications := none,
                    error := some msg })]
        nextTaskId := st1.nextTaskId + 1 } := by
    simp [runAgentStep, hthrow', htaskdef]
  have hsortrun :
      runAgents email.id (sortAgents agents) st0
        = runAgents email.id post (runAgentStep email.id st1 a) := by
    rw [hsplit, runAgents_append, ← hst1def, ← runAgents_cons]
  refine ⟨?_, ?_, ?_⟩
  · have hkeys := agentResults_keys_runAgents email.id (sortAgents agents) st0
    rw [hst0]
    simpa [hsplit] using hkeys
  · rw [hst0]
    simp only [hsortrun]
    apply mem_agentResults_runAgents
    rw [hstep]
    simp
  · have hbound : ∀ t ∈ st1.ledger, t.taskId < st1.nextTaskId := by
      rw [hst1def]
      exact ledger_runAgents_bound email.id pre st0 (by intro t ht; simp at ht)
    obtain ⟨tail, htail, htb⟩ :=
      ledger_runAgents_decomp email.id post (runAgentStep email.id st1 a)
    rw [hst0]
    simp only [hsortrun]
    rw [htail, hstep]
    simp only [List.filter_append]
    have h1 : st1.ledger.filter (fun t => t.taskId == pre.length) = [] := by
      rw [List.filter_eq_nil_iff]
      intro t ht
      have := hbound t ht
      simp only [beq_iff_eq]
      omega
    have h2 : ([task].filter (fun t => t.taskId == pre.length)) = [task] := by
      simp [htaskdef, hnext]
    have h3 : tail.filter (fun t => t.taskId == pre.length) = [] := by
      rw [List.filter_eq_nil_iff]
      intro t ht
      have := htb t ht
      rw [hstep] at this
      simp at this
      simp only [beq_iff_eq]
      omega
    rw [h1, h2, h3]
    simp [htaskdef, hnext, hmail]

/-- C2 witness: the amended theorem applied to the concrete two-unit run in
which the higher-priority filter unit throws. -/
theorem thrown_unit_isolated_witness :
    ((processEmailInternal [throwingAgent, okAgent] exEmail).result.agentResults.map
        Prod.fst = ([] ++ throwingAgent :: [okAgent]).map Agent.id) ∧
    (("a-throw", ({ success := false, modifications := none,
                    error := some "boom" } : AgentProcessResult))
        ∈ (processEmailInternal [throwingAgent, okAgent] exEmail).result.agentResults) ∧
    ((processEmailInternal [throwingAgent, okAgent] exEmail).ledger.filter
        (fun t => t.taskId == ([] : List Agent).length)
      = [{ taskId := ([] : List Agent).length, agentId := "a-throw",
           emailId := "e1", action := "process",
           paramsEmail := applySuccessfulMods exEmail [],
           status := "processing", error := none, result := none,
           completed := false }]) :=
  thrown_unit_isolated_task_unfinalized [throwingAgent, okAgent] exEmail
    [] [okAgent] throwingAgent "boom" rfl rfl

/-! ## Shared lemmas about the campaign service -/

theorem mapGet_mapSet_self {α : Type} (k : String) (v : α)
    (l : List (String × α)) : mapGet k (mapSet k v l) = some v := by
  induction l with
  | nil => simp [mapGet, mapSet]
  | cons p rest ih =>
      obtain ⟨k', v'⟩ := p
      by_cases h : k' = k
      · simp [mapSet, mapGet, h]
      · simp [mapSet, mapGet, h, ih]

theorem mapGet_mapDel_self {α : Type} (k : String)
    (l : List (String × α)) : mapGet k (mapDel k l) = none := by
  induction l with
  | nil => rfl
  | cons p rest ih =>
      obtain ⟨k', v'⟩ := p
      by_cases h : k' = k
      · simpa [mapDel, h] using ih
      · simp only [mapDel, List.filter_cons] at ih ⊢
        simp [mapGet, h, ih]

/-- The jobs that running the scheduling logic on a schedule submits: one
repeating job when a frequency is present, one delayed job for a strictly
future one-time start, none for a past one-time start (immediate
execution).  Spec-side description used to state the scheduling claims. -/
def derivedJobs (now : Int) (cid : String) (schedule : CampaignSchedule) :
    List Job :=
  if schedule.frequency.isSome then [recurringJob cid schedule]
  else if schedule.startDate - now > 0 then
    [oneTimeJob cid (schedule.startDate - now)]
  else []

/-- The campaign status after the scheduling logic ran: `active` when a
one-time schedule executed immediately, `scheduled` otherwise.  Spec-side
description used to state the scheduling claims. -/
def statusAfterScheduling (now : Int) (schedule : CampaignSchedule) :
    CampaignStatus :=
  if schedule.frequency.isNone ∧ schedule.startDate ≤ now then
    CampaignStatus.active
  else CampaignStatus.scheduled

theorem scheduleCampaign_ok (now : Int) (s : ServiceState) (cid : String)
    (c : Campaign) (schedule : CampaignSchedule)
    (hc : getCampaign s cid = some c) :
    (scheduleCampaign false now s cid schedule).2 = Except.ok () ∧
    (scheduleCampaign false now s cid schedule).1.queue
        = s.queue ++ derivedJobs now cid schedule ∧
    (getCampaign (scheduleCampaign false now s cid schedule).1 cid).map
        Campaign.status = some (statusAfterScheduling now schedule) ∧
    (scheduleCampaign false now s cid schedule).1.execLog
        = s.execLog ++
          (if schedule.frequency.isNone ∧ schedule.startDate ≤ now
           then [cid] else []) ∧
    (scheduleCampaign false now s cid schedule).1.drafts = s.drafts := by
  have hc' : mapGet cid s.campaigns = some c := hc
  cases hf : schedule.frequency with
  | some freq =>
      simp [scheduleCampaign, hc', hf, scheduleRecurringCampaign, queueAdd,
            getCampaign, mapGet_mapSet_self, derivedJobs,
            statusAfterScheduling]
  | none =>
      by_cases hd : schedule.startDate - now > 0
      · have hle : ¬(schedule.startDate ≤ now) := by omega
        simp [scheduleCampaign, hc', hf, scheduleOneTimeCampaign, queueAdd,
              hd, getCampaign, mapGet_mapSet_self, derivedJobs,
              statusAfterScheduling, hle]
      · have hle : schedule.startDate ≤ now := by omega
        simp [scheduleCampaign, hc', hf, scheduleOneTimeCampaign, queueAdd,
              hd, executeCampaign, getCampaign, mapGet_mapSet_self,
              derivedJobs, statusAfterScheduling, hle]

/-! ## Concrete campaign states used by counterexamples and witnesses -/

def futureSchedule : CampaignSchedule := { startDate := 2000, timezone := "UTC" }

def pastSchedule : CampaignSchedule := { startDate := 0, timezone := "UTC" }

def dailySchedule : CampaignSchedule :=
  { startDate := 0, timezone := "UTC", frequency := some { type := "daily" } }

def pausedFutureCampaign : Campaign :=
  { id := "c1", name := "Paused", status := CampaignStatus.paused,
    schedule := futureSchedule, metricsSent := 0 }

def resumeCexState : ServiceState :=
  { campaigns := [("c1", pausedFutureCampaign)], drafts := [], queue := [],
    execLog := [] }

def oneTimeCampaign : Campaign :=
  { id := "c5", name := "OneTime", status := CampaignStatus.draft,
    schedule := pastSchedule, metricsSent := 0 }

def oneTimeCexState : ServiceState :=
  { campaigns := [("c5", oneTimeCampaign)], drafts := [], queue := [],
    execLog := [] }

def emptyServiceState : ServiceState :=
  { campaigns := [], drafts := [], queue := [], execLog := [] }

/-! ## Claims about the campaign scheduler and state machine -/

/-- C5: scheduling a one-time campaign (no frequency) with a start date not
after now performs exactly one immediate synchronous execution and submits
no job; with a strictly future start date it submits exactly one delayed
job, with delay startDate - now, 3 attempts and exponential backoff, and
performs no immediate execution. -/
theorem one_time_scheduling_spec (now : Int) (s : ServiceState)
    (cid : String) (c : Campaign) (schedule : CampaignSchedule)
    (hc : getCampaign s cid = some c) (hfreq : schedule.frequency = none) :
    (schedule.startDate ≤ now →
      (scheduleCampaign false now s cid schedule).2 = Except.ok () ∧
      (scheduleCampaign false now s cid schedule).1.queue = s.queue ∧
      (scheduleCampaign false now s cid schedule).1.execLog
          = s.execLog ++ [cid]) ∧
    (now < schedule.startDate →
      (scheduleCampaign false now s cid schedule).2 = Except.ok () ∧
      (scheduleCampaign false now s cid schedule).1.queue
          = s.queue ++ [oneTimeJob cid (schedule.startDate - now)] ∧
      (oneTimeJob cid (schedule.startDate - now)).attempts = some 3 ∧
      (oneTimeJob cid (schedule.startDate - now)).backoffType
          = some "exponential" ∧
      (scheduleCampaign false now s cid schedule).1.execLog = s.execLog) := by
  obtain ⟨hok, hq, hst, hlog, hd⟩ := scheduleCampaign_ok now s cid c schedule hc
  constructor
  · intro hle
    refine ⟨hok, ?_, ?_⟩
    · rw [hq]; simp [derivedJobs, hfreq]; omega
    · rw [hlog]; simp [hfreq, hle]
  · intro hlt
    have hle : ¬(schedule.startDate ≤ now) := by omega
    refine ⟨hok, ?_, rfl, rfl, ?_⟩
    · rw [hq]; simp [derivedJobs, hfreq]; omega
    · rw [hlog]; simp [hfreq, hle]

/-- C5 witness: the one-time scheduling theorem applied to a stored
campaign, once with a future start date and once with a past one. -/
theorem one_time_scheduling_witness :
    ((scheduleCampaign false 0 oneTimeCexState "c5" futureSchedule).2
        = Except.ok () ∧
     (scheduleCampaign false 0 oneTimeCexState "c5" futureSchedule).1.queue
        = oneTimeCexState.queue ++
            [oneTimeJob "c5" (futureSchedule.startDate - 0)] ∧
     (oneTimeJob "c5" (futureSchedule.startDate - 0)).attempts = some 3 ∧
     (oneTimeJob "c5" (futureSchedule.startDate - 0)).backoffType
        = some "exponential" ∧
     (scheduleCampaign false 0 oneTimeCexState "c5" futureSchedule).1.execLog
        = oneTimeCexState.execLog) ∧
    ((scheduleCampaign false 5 oneTimeCexState "c5" pastSchedule).2
        = Except.ok () ∧
     (scheduleCampaign false 5 oneTimeCexState "c5" pastSchedule).1.queue
        = oneTimeCexState.queue ∧
     (scheduleCampaign false 5 oneTimeCexState "c5" pastSchedule).1.execLog
        = oneTimeCexState.execLog ++ ["c5"]) :=
  ⟨(one_time_scheduling_spec 0 oneTimeCexState "c5" oneTimeCampaign
      futureSchedule rfl rfl).2 (by decide),
   (one_time_scheduling_spec 5 oneTimeCexState "c5" oneTimeCampaign
      pastSchedule rfl rfl).1 (by decide)⟩

/-- C4 counterexample: resuming a paused campaign whose stored one-time
schedule starts in the future succeeds, but the stored status ends up
scheduled, not active as the claim states. -/
theorem resume_not_active_counterexample :
    (resumeCampaign false 0 resumeCexState "c1").2 = Except.ok () ∧
    (getCampaign (resumeCampaign false 0 resumeCexState "c1").1 "c1").map
        Campaign.status = some CampaignStatus.scheduled ∧
    some CampaignStatus.scheduled ≠ some CampaignStatus.active := by
  refine ⟨rfl, rfl, by decide⟩

/-- C4 (amended): resuming a campaign not in paused always fails with the
invalid-state error; resuming a paused campaign resubmits the jobs derived
from its stored schedule, and the resulting status is scheduled, except
when the stored schedule is one-time with a start date not in the future,
where immediate execution leaves it active. -/
theorem resume_campaign_behavior (now : Int) (s : ServiceState)
    (cid : String) (c : Campaign) (hc : getCampaign s cid = some c) :
    (c.status ≠ CampaignStatus.paused →
      resumeCampaign false now s cid
        = (s, Except.error "Failed to resume campaign: Campaign is not paused")) ∧
    (c.status = CampaignStatus.paused →
      (resumeCampaign false now s cid).2 = Except.ok () ∧
      (resumeCampaign false now s cid).1.queue
          = s.queue ++ derivedJobs now cid c.schedule ∧
      (getCampaign (resumeCampaign false now s cid).1 cid).map
          Campaign.status = some (statusAfterScheduling now c.schedule)) := by
  constructor
  · intro hne
    simp [resumeCampaign, hc, hne]
  · intro hp
    have hc1 : getCampaign
        { s with campaigns :=
            mapSet cid { c with status := CampaignStatus.active } s.campaigns }
        cid = some { c with status := CampaignStatus.active } := by
      simp [getCampaign, mapGet_mapSet_self]
    obtain ⟨hok, hq, hst, hlog, hd⟩ :=
      scheduleCampaign_ok now
        { s with campaigns :=
            mapSet cid { c with status := CampaignStatus.active } s.campaigns }
        cid { c with status := CampaignStatus.active } c.schedule hc1
    have hres : resumeCampaign false now s cid
        = ((scheduleCampaign false now
            { s with campaigns :=
                mapSet cid { c with status := CampaignStatus.active } s.campaigns }
            cid c.schedule).1, Except.ok ()) := by
      simp [resumeCampaign, hc, hp, hok]
    refine ⟨?_, ?_, ?_⟩
    · rw [hres]
    · rw [hres]
      simpa using hq
    · rw [hres]
      exact hst

/-- C4 witness: the resume theorem applied to the concrete paused campaign
with a future one-time schedule. -/
theorem resume_campaign_behavior_witness :
    (resumeCampaign false 0 resumeCexState "c1").2 = Except.ok () ∧
    (resumeCampaign false 0 resumeCexState "c1").1.queue
        = resumeCexState.queue ++
            derivedJobs 0 "c1" pausedFutureCampaign.schedule ∧
    (getCampaign (resumeCampaign false 0 resumeCexState "c1").1 "c1").map
        Campaign.status
        = some (statusAfterScheduling 0 pausedFutureCampaign.schedule) :=
  (resume_campaign_behavior 0 resumeCexState "c1" pausedFutureCampaign
    rfl).2 rfl

/-! Reachable state for the deletion counterexample: a daily recurring
campaign is scheduled, then its execution callback fires (making it
active), and only then is it deleted. -/

def recurringCampaign : Campaign :=
  { id := "c7", name := "Recurring", status := CampaignStatus.draft,
    schedule := pastSchedule, metricsSent := 0 }

def deleteCexStart : ServiceState :=
  { campaigns := [("c7", recurringCampaign)], drafts := [], queue := [],
    execLog := [] }

def deleteCexActive : ServiceState :=
  (executeCampaign
    (scheduleCampaign false 0 deleteCexStart "c7" dailySchedule).1 "c7").1

/-- C7 counterexample: a campaign in the non-terminal status active (after
its recurring schedule fired once) is deleted successfully, yet one delayed
job referencing its id remains in the queue, because deletion cancels jobs
only for campaigns in status scheduled. -/
theorem delete_leaves_job_counterexample :
    (getCampaign deleteCexActive "c7").map Campaign.status
        = some CampaignStatus.active ∧
    (deleteCampaign deleteCexActive "c7").2 = Except.ok true ∧
    ((deleteCampaign deleteCexActive "c7").1.queue.filter
        (fun j => (j.state == "waiting" || j.state == "delayed")
                  && j.campaignId == "c7")).length = 1 := by
  refine ⟨rfl, rfl, rfl⟩

/-- C7 (amended): deleting a campaign removes every queued or delayed job
referencing its id only when the campaign status is scheduled; in that case
the deletion succeeds, the campaign disappears from the store, and zero
queued or delayed jobs referencing the id remain.  Deletion in other
non-terminal statuses leaves existing jobs in the queue. -/
theorem delete_scheduled_campaign_clears_jobs (s : ServiceState)
    (cid : String) (c : Campaign) (hc : getCampaign s cid = some c)
    (hs : c.status = CampaignStatus.scheduled) :
    (deleteCampaign s cid).2 = Except.ok true ∧
    getCampaign (deleteCampaign s cid).1 cid = none ∧
    (deleteCampaign s cid).1.queue.filter
        (fun j => (j.state == "waiting" || j.state == "delayed")
                  && j.campaignId == cid) = [] := by
  have hdel : deleteCampaign s cid
      = ({ cancelScheduledJobs s cid with
            campaigns := mapDel cid (cancelScheduledJobs s cid).campaigns },
         Except.ok true) := by
    simp [deleteCampaign, hc, hs]
  refine ⟨by rw [hdel], ?_, ?_⟩
  · rw [hdel]
    exact mapGet_mapDel_self cid _
  · rw [hdel]
    show (cancelScheduledJobs s cid).queue.filter _ = []
    rw [List.filter_eq_nil_iff]
    intro j hj
    have := (List.mem_filter.mp hj).2
    simp only [cancelScheduledJobs] at this ⊢
    intro hcontra
    rw [hcontra] at this
    cases this

/-- C7 witness: deleting a concrete scheduled campaign with one delayed job
referencing it leaves no such job behind. -/
theorem delete_scheduled_campaign_clears_jobs_witness :
    (deleteCampaign
        { campaigns :=
            [("c7", { recurringCampaign with
                        status := CampaignStatus.scheduled })],
          drafts := [], queue := [recurringJob "c7" dailySchedule],
          execLog := [] } "c7").2 = Except.ok true ∧
    getCampaign
        (deleteCampaign
          { campaigns :=
              [("c7", { recurringCampaign with
                          status := CampaignStatus.scheduled })],
            drafts := [], queue := [recurringJob "c7" dailySchedule],
            execLog := [] } "c7").1 "c7" = none ∧
    (deleteCampaign
        { campaigns :=
            [("c7", { recurringCampaign with
                        status := CampaignStatus.scheduled })],
          drafts := [], queue := [recurringJob "c7" dailySchedule],
          execLog := [] } "c7").1.queue.filter
        (fun j => (j.state == "waiting" || j.state == "delayed")
                  && j.campaignId == "c7") = [] :=
  delete_scheduled_campaign_clears_jobs _ "c7"
    { recurringCampaign with status := CampaignStatus.scheduled } rfl rfl

/-! Draft decision claims. -/

def approvedDraft : EmailDraft := { id := "d8", status := "approved" }

def draftCexState : ServiceState :=
  { campaigns := [], drafts := [("d8", approvedDraft)], queue := [],
    execLog := [] }

/-- C8 counterexample: rejecting a draft already in status approved
succeeds without any error and moves the stored status backward to
rejected; a second approval also succeeds silently instead of surfacing an
error. -/
theorem approved_draft_overwritten_counterexample :
    (rejectDraft draftCexState "d8" "bad").2 = Except.ok () ∧
    (mapGet "d8" (rejectDraft draftCexState "d8" "bad").1.drafts).map
        EmailDraft.status = some "rejected" ∧
    (approveDraft draftCexState "d8" "approver").2 = Except.ok () ∧
    some "rejected" ≠ some "approved" := by
  refine ⟨rfl, rfl, rfl, by decide⟩

/-- C8 (amended): approve and reject have no guard on the current draft
status: for any existing draft, whatever its status, approval succeeds and
stores approved, rejection succeeds and stores rejected (so a decided draft
can be re-decided and even moved backward); only an unknown draft id is
surfaced as an error. -/
theorem draft_decision_unguarded (s : ServiceState)
    (draftId approver reason : String) :
    (∀ d, mapGet draftId s.drafts = some d →
      ((approveDraft s draftId approver).2 = Except.ok () ∧
       (mapGet draftId (approveDraft s draftId approver).1.drafts).map
           EmailDraft.status = some "approved") ∧
      ((rejectDraft s draftId reason).2 = Except.ok () ∧
       (mapGet draftId (rejectDraft s draftId reason).1.drafts).map
           EmailDraft.status = some "rejected")) ∧
    (mapGet draftId s.drafts = none →
      approveDraft s draftId approver
        = (s, Except.error
            ("Failed to approve draft: Draft " ++ draftId ++ " not found")) ∧
      rejectDraft s draftId reason
        = (s, Except.error
            ("Failed to reject draft: Draft " ++ draftId ++ " not found"))) := by
  constructor
  · intro d hd
    refine ⟨⟨?_, ?_⟩, ?_, ?_⟩
    · cases hcid : d.campaignId with
      | none => simp [approveDraft, hd, hcid]
      | some cid =>
          cases hcamp : getCampaign { s with drafts := mapSet draftId (⟨d.id, some cid, "approved"⟩ : EmailDraft) s.drafts } cid <;>
            simp [approveDraft, hd, hcid, hcamp]
    · cases hcid : d.campaignId with
      | none => simp [approveDraft, hd, hcid, mapGet_mapSet_self]
      | some cid =>
          cases hcamp : getCampaign { s with drafts := mapSet draftId (⟨d.id, some cid, "approved"⟩ : EmailDraft) s.drafts } cid <;>
            simp [approveDraft, hd, hcid, hcamp, mapGet_mapSet_self]
    · simp [rejectDraft, hd]
    · simp [rejectDraft, hd, mapGet_mapSet_self]
  · intro hd
    exact ⟨by simp [approveDraft, hd], by simp [rejectDraft, hd]⟩

/-- C8 witness: the unguarded-decision theorem applied to a concrete draft
already in status approved. -/
theorem draft_decision_unguarded_witness :
    ((approveDraft draftCexState "d8" "approver").2 = Except.ok () ∧
     (mapGet "d8" (approveDraft draftCexState "d8" "approver").1.drafts).map
         EmailDraft.status = some "approved") ∧
    ((rejectDraft draftCexState "d8" "why").2 = Except.ok () ∧
     (mapGet "d8" (rejectDraft draftCexState "d8" "why").1.drafts).map
         EmailDraft.status = some "rejected") :=
  (draft_decision_unguarded draftCexState "d8" "approver" "why").1
    approvedDraft rfl

/-! Failure-atomicity claims. -/

def draftCampaign9 : Campaign :=
  { id := "c9", name := "Atomicity", status := CampaignStatus.draft,
    schedule := pastSchedule, metricsSent := 0 }

def scheduleCexState : ServiceState :=
  { campaigns := [("c9", draftCampaign9)], drafts := [], queue := [],
    execLog := [] }

/-- C9 counterexample: scheduling a draft campaign while the job queue is
unavailable fails with an error, yet the stored status has already moved
from draft to scheduled: the failed operation leaves a partial status
change behind. -/
theorem schedule_failure_partial_state_counterexample :
    (getCampaign scheduleCexState "c9").map Campaign.status
        = some CampaignStatus.draft ∧
    (scheduleCampaign true 0 scheduleCexState "c9" futureSchedule).2
        = Except.error "Failed to schedule campaign: queue unavailable" ∧
    (getCampaign
        (scheduleCampaign true 0 scheduleCexState "c9" futureSchedule).1
        "c9").map Campaign.status = some CampaignStatus.scheduled ∧
    some CampaignStatus.scheduled ≠ some CampaignStatus.draft := by
  refine ⟨rfl, rfl, rfl, by decide⟩

/-- C9 (amended): campaign operations that fail on their precondition
checks (unknown campaign id for schedule, pause, resume and delete; resume
on a non-paused campaign) leave the service state exactly unchanged; the
claimed atomicity does not hold for failures of the job-queue submission
that happen after the status assignment (see the counterexample). -/
theorem precondition_failure_leaves_state_unchanged (qfail : Bool)
    (now : Int) (s : ServiceState) (cid : String)
    (schedule : CampaignSchedule) :
    (getCampaign s cid = none →
      scheduleCampaign qfail now s cid schedule
        = (s, Except.error
            ("Failed to schedule campaign: Campaign " ++ cid ++ " not found")) ∧
      pauseCampaign s cid
        = (s, Except.error
            ("Failed to pause campaign: Campaign " ++ cid ++ " not found")) ∧
      resumeCampaign qfail now s cid
        = (s, Except.error
            ("Failed to resume campaign: Campaign " ++ cid ++ " not found")) ∧
      deleteCampaign s cid = (s, Except.ok false)) ∧
    (∀ c, getCampaign s cid = some c → c.status ≠ CampaignStatus.paused →
      resumeCampaign qfail now s cid
        = (s, Except.error "Failed to resume campaign: Campaign is not paused")) := by
  constructor
  · intro hc
    refine ⟨?_, ?_, ?_, ?_⟩
    · simp [scheduleCampaign, hc]
    · simp [pauseCampaign, hc]
    · simp [resumeCampaign, hc]
    · simp [deleteCampaign, hc]
  · intro c hc hne
    simp [resumeCampaign, hc, hne]

/-- C9 witness: the precondition-failure theorem applied to an unknown
campaign id on the empty state and to resuming a concrete draft (non-paused)
campaign. -/
theorem precondition_failure_witness :
    (scheduleCampaign false 0 emptyServiceState "nope" futureSchedule
        = (emptyServiceState,
           Except.error
             ("Failed to schedule campaign: Campaign " ++ "nope" ++ " not found")) ∧
     pauseCampaign emptyServiceState "nope"
        = (emptyServiceState,
           Except.error
             ("Failed to pause campaign: Campaign " ++ "nope" ++ " not found")) ∧
     resumeCampaign false 0 emptyServiceState "nope"
        = (emptyServiceState,
           Except.error
             ("Failed to resume campaign: Campaign " ++ "nope" ++ " not found")) ∧
     deleteCampaign emptyServiceState "nope"
        = (emptyServiceState, Except.ok false)) ∧
    resumeCampaign false 0 scheduleCexState "c9"
        = (scheduleCexState,
           Except.error "Failed to resume campaign: Campaign is not paused") :=
  ⟨(precondition_failure_leaves_state_unchanged false 0 emptyServiceState
      "nope" futureSchedule).1 rfl,
   (precondition_failure_leaves_state_unchanged false 0 scheduleCexState
      "c9" futureSchedule).2 draftCampaign9 rfl (by decide)⟩

/-! The weekly recurrence example. -/

def weeklyExampleSchedule : CampaignSchedule :=
  { startDate := 0, timezone := "America/New_York", sendTime := some "09:00",
    frequency := some { type := "weekly", daysOfWeek := some [1, 3, 5] } }

/-- Modelled from the spec: the Job Queue collaborator (Bull, not part of
src) interprets repeat.cron as a standard five-field cron expression
(minute, hour, day-of-month, month, day-of-week); such an expression fires
at minute m, hour h on weekday w only when the respective fields denote
those values, a field denoting a value when it is the star or a
comma-separated list containing the value's decimal representation. -/
def cronFieldDenotes (field : String) (v : Nat) : Bool :=
  field = "*" ||
    ((field.toList.splitOn ',').map (fun cs => String.mk cs)).any
      (fun p => p = toString v)

/-- Modelled from the spec: whether a five-field cron expression fires at
the given minute, hour and weekday (on every day of the month). -/
def cronFiresAt (pattern : String) (minute hour weekday : Nat) : Bool :=
  match (pattern.toList.splitOn ' ').map (fun cs => String.mk cs) with
  | [mi, h, _dom, _mon, dow] =>
      cronFieldDenotes mi minute && cronFieldDenotes h hour &&
        cronFieldDenotes dow weekday
  | _ => false

/-- C6: the weekly example (days Mon/Wed/Fri, sendTime 09:00, timezone
America/New_York) makes the scheduler derive the cron string
0 09:00 * * 1,3,5, whose hour field is the string 09:00 rather than 9: the
derived recurrence does not fire at 09:00 on Monday (nor any of the given
weekdays), because the send time was interpolated into the single hour
field of the five-field pattern.  The fallback constants, in contrast, are
the fixed documented defaults: send time 10:00 and weekday 1. -/
theorem weekly_cron_pattern_malformed :
    deriveCronPattern weeklyExampleSchedule = "0 09:00 * * 1,3,5" ∧
    cronFiresAt (deriveCronPattern weeklyExampleSchedule) 0 9 1 = false ∧
    cronFiresAt (deriveCronPattern weeklyExampleSchedule) 0 9 3 = false ∧
    cronFiresAt (deriveCronPattern weeklyExampleSchedule) 0 9 5 = false ∧
    sendTimeOrDefault { startDate := 0, timezone := "UTC" } = "10:00" ∧
    deriveCronPattern
        { startDate := 0, timezone := "UTC",
          frequency := some { type := "weekly" } } = "0 10:00 * * 1" := by
  refine ⟨rfl, by decide, by decide, by decide, rfl, rfl⟩

end AgenticEmail
